import Mathlib

/-!
Verification of the real-time collaboration engine (`dify_workflow/collaboration.py`).

The Python classes `OTEngine`, `CollaborationRoom`, `CollaborationClient` and
`CollaborationManager` are embedded as Lean structures with explicit state
passing: every mutating method becomes a function returning the updated state.
Python dictionaries become association lists over `String` keys (`alookup`,
`aset`, `aerase`); wall-clock reads (`time.time()`) and generated ids
(`uuid.uuid4()`) become explicit parameters; exceptions become `Except`.
Timestamps are modelled as `Nat` (only ordering matters to the code).
-/

set_option maxHeartbeats 1000000
set_option maxRecDepth 8192

namespace Collab

/-- First-match lookup in an association list (python `d[k]` / `d.get(k)`). -/
def alookup {κ α : Type} [DecidableEq κ] : List (κ × α) → κ → Option α
  | [], _ => none
  | (k, v) :: rest, key => if k = key then some v else alookup rest key

/-- Dict assignment `d[k] = v`: replace the binding in place, or append. -/
def aset {κ α : Type} [DecidableEq κ] : List (κ × α) → κ → α → List (κ × α)
  | [], key, val => [(key, val)]
  | (k, v) :: rest, key, val =>
      if k = key then (key, val) :: rest else (k, v) :: aset rest key val

/-- Dict deletion `del d[k]` (keys are unique in all maps the code builds). -/
def aerase {κ α : Type} [DecidableEq κ] (l : List (κ × α)) (key : κ) : List (κ × α) :=
  l.filter (fun p => p.1 ≠ key)

/-- `class OperationType(Enum)`: the six recognized operation tags. -/
inductive OperationType : Type
  | insert
  | delete
  | update
  | move
  | connect
  | disconnect
deriving DecidableEq, Repr

/-- `OperationType(value)`: enum lookup by wire value; `none` models the
`ValueError` raised on an unrecognized tag. -/
def OperationType.fromString (s : String) : Option OperationType :=
  if s = "insert" then some .insert
  else if s = "delete" then some .delete
  else if s = "update" then some .update
  else if s = "move" then some .move
  else if s = "connect" then some .connect
  else if s = "disconnect" then some .disconnect
  else none

/-- `@dataclass Operation`: a single write intent. `value`/`old_value` are
opaque payloads (`Any` in the source), modelled as `Option String`. -/
structure Operation : Type where
  id : String
  type : OperationType
  path : String
  value : Option String := none
  old_value : Option String := none
  timestamp : Nat := 0
  user_id : String := ""
  revision : Nat := 0
deriving DecidableEq, Repr

/-- `@dataclass Cursor`: a user cursor position (`x`/`y` floats become `Int`). -/
structure Cursor : Type where
  user_id : String
  user_name : String
  user_color : String
  node_id : Option String := none
  x : Int := 0
  y : Int := 0
  last_update : Nat := 0
deriving DecidableEq, Repr

/-- `class OTEngine`: operation log, revision counter and transform cache. -/
structure OTEngine : Type where
  operations : List Operation
  revision : Nat
  transform_cache : List ((String × String) × Operation)
deriving DecidableEq, Repr

/-- `OTEngine.apply_operation`: increment the revision counter, stamp the
operation with it, append to the log, return the stamped operation. -/
def OTEngine.apply_operation (engine : OTEngine) (op : Operation) : Operation × OTEngine :=
  let revision := engine.revision + 1
  let op := { op with revision := revision }
  (op, { engine with revision := revision, operations := engine.operations ++ [op] })

/-- `OTEngine.transform(op1, op2)`: transform `op1` against `op2`. Results are
memoized in `transform_cache` keyed by the pair `(op1.id, op2.id)`. -/
def OTEngine.transform (engine : OTEngine) (op1 op2 : Operation) : Operation × OTEngine :=
  let cache_key := (op1.id, op2.id)
  match alookup engine.transform_cache cache_key with
  | some cached => (cached, engine)
  | none =>
      let transformed : Operation :=
        { id := op1.id, type := op1.type, path := op1.path, value := op1.value,
          old_value := op1.old_value, timestamp := op1.timestamp,
          user_id := op1.user_id, revision := op1.revision }
      let transformed :=
        if op1.path = op2.path then
          if op1.timestamp < op2.timestamp then
            transformed
          else
            { transformed with value := op2.value }
        else transformed
      (transformed,
       { engine with transform_cache := (cache_key, transformed) :: engine.transform_cache })

/-- `OTEngine.get_operations_since(revision)`: all logged operations with a
strictly greater revision, in log order. -/
def OTEngine.get_operations_since (engine : OTEngine) (revision : Nat) : List Operation :=
  engine.operations.filter (fun op => revision < op.revision)

/-- A chat entry as built by `CollaborationRoom.add_chat_message` (a python
dict with fixed keys `id`, `user_id`, `user_name`, `message`, `timestamp`). -/
structure ChatMessage : Type where
  id : String
  user_id : String
  user_name : String
  message : String
  timestamp : Nat
deriving DecidableEq, Repr

/-- Outbound wire envelope `{"type": ..., "data": {...}}`, one constructor per
event name the Room/Client produce. -/
inductive Message : Type
  | operation (id : String) (type : OperationType) (path : String)
      (value : Option String) (user_id : String) (revision : Nat) (timestamp : Nat)
  | cursor_update (user_id user_name user_color : String)
      (node_id : Option String) (x y : Int)
  | user_joined (user_id user_name user_color : String)
  | user_left (user_id : String)
  | chat_message (msg : ChatMessage)

/-- `class CollaborationClient`: identity plus the transport callback
`_message_handler`. The python attribute `self.room` is a back-reference into
the object graph; in this value-level embedding the room is passed explicitly
to client methods instead. A handler raising an exception is modelled by
returning `Except.error`. -/
structure CollaborationClient : Type where
  user_id : String
  user_name : String
  user_color : String
  message_handler : Option (Message → Except String Unit)

/-- `CollaborationClient.USER_COLORS`: fixed 8-entry palette. -/
def USER_COLORS : List String :=
  ["#FF6B6B", "#4ECDC4", "#45B7D1", "#FFA07A",
   "#98D8C8", "#F7DC6F", "#BB8FCE", "#85C1E2"]

/-- `CollaborationClient.send`: invoke the handler if registered; a missing
handler is a silent no-op. -/
def CollaborationClient.send (c : CollaborationClient) (message : Message) :
    Except String Unit :=
  match c.message_handler with
  | some handler => handler message
  | none => Except.ok ()

/-- `class CollaborationRoom`: per-document state. -/
structure CollaborationRoom : Type where
  room_id : String
  workflow_id : String
  ot_engine : OTEngine
  users : List (String × CollaborationClient)
  cursors : List (String × Cursor)
  chat_history : List ChatMessage
  created_at : Nat
  last_activity : Nat

/-- `CollaborationRoom._broadcast`: iterate over the members in order, skip the
excluded user, and send to each; a raising `send` is caught per recipient
(`except Exception: pass`) and the loop continues. The returned list is the
ids successfully delivered to, in iteration order; `Except.error` would model
an exception escaping to the caller (provably it never does). -/
def broadcastSend : List (String × CollaborationClient) → Message → Option String →
    Except String (List String)
  | [], _, _ => Except.ok []
  | (user_id, client) :: rest, message, exclude =>
    if exclude = some user_id then
      broadcastSend rest message exclude
    else
      match client.send message with
      | Except.ok _ =>
          match broadcastSend rest message exclude with
          | Except.ok delivered => Except.ok (user_id :: delivered)
          | Except.error e => Except.error e
      | Except.error _ => broadcastSend rest message exclude

/-- The pure value of `_broadcast`: the ids delivered to, in iteration order
(`broadcastSend` provably always returns `Except.ok` of this list). -/
def broadcastRun : List (String × CollaborationClient) → Message → Option String →
    List String
  | [], _, _ => []
  | (user_id, client) :: rest, message, exclude =>
    if exclude = some user_id then
      broadcastRun rest message exclude
    else
      match client.send message with
      | Except.ok _ => user_id :: broadcastRun rest message exclude
      | Except.error _ => broadcastRun rest message exclude

/-- The `"operation"` envelope built by `broadcast_operation`. -/
def operationMessage (op : Operation) : Message :=
  Message.operation op.id op.type op.path op.value op.user_id op.revision op.timestamp

/-- `CollaborationRoom.join`: no-op returning `False` when the user is already
a member; otherwise add the client and notify the other members. -/
def CollaborationRoom.join (room : CollaborationRoom) (client : CollaborationClient) :
    Bool × CollaborationRoom :=
  if (alookup room.users client.user_id).isSome then
    (false, room)
  else
    let room := { room with users := aset room.users client.user_id client }
    let _delivered := broadcastRun room.users
      (Message.user_joined client.user_id client.user_name client.user_color)
      (some client.user_id)
    (true, room)

/-- `CollaborationRoom.leave`: remove membership and cursor, notify the rest. -/
def CollaborationRoom.leave (room : CollaborationRoom) (user_id : String) :
    Bool × CollaborationRoom :=
  if (alookup room.users user_id).isSome then
    let room := { room with users := aerase room.users user_id,
                            cursors := aerase room.cursors user_id }
    let _delivered := broadcastRun room.users (Message.user_left user_id) none
    (true, room)
  else
    (false, room)

/-- Body of the transform loop in `CollaborationRoom.apply_operation`: the
pending operation is re-transformed (threading the engine's cache) against a
logged operation when that one has a different author, and passed through
unchanged otherwise. -/
def transformFoldStep (user_id : String) (acc : Operation × OTEngine)
    (existing_op : Operation) : Operation × OTEngine :=
  if existing_op.user_id ≠ user_id then
    OTEngine.transform acc.2 acc.1 existing_op
  else acc

/-- `CollaborationRoom.apply_operation`: stamp the author, transform against
every logged operation newer than `op.revision` authored by someone else (in
log order), apply the result, broadcast it, update `last_activity` (with the
ambient clock `now`). -/
def CollaborationRoom.apply_operation (room : CollaborationRoom) (op : Operation)
    (user_id : String) (now : Nat) : Operation × CollaborationRoom :=
  let op := { op with user_id := user_id }
  let folded := (room.ot_engine.get_operations_since op.revision).foldl
    (transformFoldStep user_id) (op, room.ot_engine)
  let applied := OTEngine.apply_operation folded.2 folded.1
  let room := { room with ot_engine := applied.2 }
  let _delivered := broadcastRun room.users (operationMessage applied.1) none
  (applied.1, { room with last_activity := now })

/-- `CollaborationRoom.update_cursor`: replace the stored cursor and broadcast
it to everyone but the originator. (The source does not touch
`last_activity` here and reads no clock.) -/
def CollaborationRoom.update_cursor (room : CollaborationRoom) (cursor : Cursor) :
    List String × CollaborationRoom :=
  let room := { room with cursors := aset room.cursors cursor.user_id cursor }
  let delivered := broadcastRun room.users
    (Message.cursor_update cursor.user_id cursor.user_name cursor.user_color
      cursor.node_id cursor.x cursor.y)
    (some cursor.user_id)
  (delivered, room)

/-- The chat-history update inside `add_chat_message`: append, then keep only
the last 100 entries (`self.chat_history[-100:]`). -/
def addChatList (h : List ChatMessage) (m : ChatMessage) : List ChatMessage :=
  let h2 := h ++ [m]
  if 100 < h2.length then h2.drop (h2.length - 100) else h2

/-- `CollaborationRoom.add_chat_message`: append a message (fresh `msg_id`
models `uuid.uuid4()`, `now` models `time.time()`), keep only the last 100
entries, broadcast. (The source does not touch `last_activity` here.) -/
def CollaborationRoom.add_chat_message (room : CollaborationRoom)
    (user_id user_name message msg_id : String) (now : Nat) :
    List String × CollaborationRoom :=
  let chat_msg : ChatMessage :=
    { id := msg_id, user_id := user_id, user_name := user_name,
      message := message, timestamp := now }
  let room := { room with chat_history := addChatList room.chat_history chat_msg }
  let delivered := broadcastRun room.users (Message.chat_message chat_msg) none
  (delivered, room)

/-- `CollaborationClient._assign_color`: first palette color not in use in the
room, falling back to `USER_COLORS[0]`. -/
def assignColor (room : CollaborationRoom) : String :=
  let used := room.users.map (fun p => p.2.user_color)
  match USER_COLORS.find? (fun c => !(used.contains c)) with
  | some color => color
  | none => USER_COLORS.headD ""

/-- `CollaborationClient.__init__`: claims a color from the palette; the
transport handler starts unset. -/
def mkClient (user_id user_name : String) (room : CollaborationRoom) :
    CollaborationClient :=
  { user_id := user_id, user_name := user_name,
    user_color := assignColor room, message_handler := none }

/-- Inbound payload consumed by `CollaborationClient.handle_operation`
(`data.get(...)` of a JSON-ish dict; absent keys are `none`). -/
structure OperationPayload : Type where
  id : Option String := none
  type : Option String := none
  path : Option String := none
  value : Option String := none
  old_value : Option String := none
  revision : Option Nat := none
deriving DecidableEq, Repr

/-- `CollaborationClient.handle_operation`: build an `Operation` from the
payload (`fresh_id` models `uuid.uuid4()`, `now` the dataclass timestamp
default `time.time()`) and apply it to the room. An unrecognized tag is the
`ValueError` from the enum constructor, propagated as `Except.error` before
the room is touched. -/
def CollaborationClient.handle_operation (c : CollaborationClient)
    (room : CollaborationRoom) (data : OperationPayload) (fresh_id : String)
    (now : Nat) : Except String (Operation × CollaborationRoom) :=
  match OperationType.fromString (data.type.getD "update") with
  | none => Except.error (data.type.getD "update")
  | some t =>
      let op : Operation :=
        { id := data.id.getD fresh_id, type := t, path := data.path.getD "",
          value := data.value, old_value := data.old_value, timestamp := now,
          user_id := c.user_id, revision := data.revision.getD 0 }
      Except.ok (room.apply_operation op c.user_id now)

/-- `class CollaborationManager`: room registry and reverse index. -/
structure CollaborationManager : Type where
  rooms : List (String × CollaborationRoom)
  user_rooms : List (String × String)

/-- The manager constructed at import time (`collaboration_manager = ...`). -/
def emptyManager : CollaborationManager :=
  { rooms := [], user_rooms := [] }

/-- A freshly constructed `CollaborationRoom(room_id, workflow_id)`. -/
def freshRoom (room_id workflow_id : String) (now : Nat) : CollaborationRoom :=
  { room_id := room_id, workflow_id := workflow_id,
    ot_engine := { operations := [], revision := 0, transform_cache := [] },
    users := [], cursors := [], chat_history := [],
    created_at := now, last_activity := now }

/-- `CollaborationManager.get_or_create_room`: deterministic id
`"room_" + workflow_id`; create lazily on first use. -/
def CollaborationManager.get_or_create_room (m : CollaborationManager)
    (workflow_id : String) (now : Nat) : CollaborationRoom × CollaborationManager :=
  let room_id := "room_" ++ workflow_id
  match alookup m.rooms room_id with
  | some room => (room, m)
  | none =>
      let room := freshRoom room_id workflow_id now
      (room, { m with rooms := aset m.rooms room_id room })

/-- Result of `CollaborationManager.join_room`; `leave_calls` records, in
order, every `(room_id, user_id)` on which the code invoked `Room.leave`,
making that (otherwise internal) call observable. -/
structure JoinResult : Type where
  room : CollaborationRoom
  client : CollaborationClient
  manager : CollaborationManager
  leave_calls : List (String × String)

/-- The "leave previous room if any" block of `join_room`: when the user is
tracked in `user_rooms` and that room id is still registered, call that
room's `leave` (the code never compares it with the target room). Returns
the updated registry plus the `(room_id, user_id)` leave calls performed. -/
def leaveOldRoom (m : CollaborationManager) (user_id : String) :
    CollaborationManager × List (String × String) :=
  match alookup m.user_rooms user_id with
  | some old_room_id =>
      match alookup m.rooms old_room_id with
      | some old_room =>
          ({ m with rooms := aset m.rooms old_room_id (old_room.leave user_id).2 },
           [(old_room_id, user_id)])
      | none => (m, [])
  | none => (m, ([] : List (String × String)))

/-- The join phase of `join_room` after the leave block: read the target room
object (live state under its dictionary key; `fallback` is the reference
obtained from `get_or_create_room`, used only if the key vanished), construct
a client from it, join, write the mutated room back under its key, and point
`user_rooms[user_id]` at `room.room_id`. -/
def joinTarget (m2 : CollaborationManager) (room_key : String)
    (fallback : CollaborationRoom) (user_id user_name : String) :
    CollaborationRoom × CollaborationClient × CollaborationManager :=
  let room := (alookup m2.rooms room_key).getD fallback
  let client := mkClient user_id user_name room
  let joined := room.join client
  (joined.2, client,
   { m2 with rooms := aset m2.rooms room_key joined.2,
             user_rooms := aset m2.user_rooms user_id room.room_id })

/-- `CollaborationManager.join_room`: get or create the target room; run the
leave-previous-room block; then run the join phase. -/
def CollaborationManager.join_room (m0 : CollaborationManager)
    (workflow_id user_id user_name : String) (now : Nat) : JoinResult :=
  let room_key := "room_" ++ workflow_id
  let gc := m0.get_or_create_room workflow_id now
  let step := leaveOldRoom gc.2 user_id
  let jt := joinTarget step.1 room_key gc.1 user_id user_name
  { room := jt.1, client := jt.2.1, manager := jt.2.2, leave_calls := step.2 }

/-- `CollaborationManager.leave_room`: leave the tracked room (if it still
exists) and drop the reverse-index entry; no-op for untracked users. -/
def CollaborationManager.leave_room (m : CollaborationManager) (user_id : String) :
    CollaborationManager :=
  match alookup m.user_rooms user_id with
  | none => m
  | some room_id =>
      let m :=
        match alookup m.rooms room_id with
        | some room => { m with rooms := aset m.rooms room_id (room.leave user_id).2 }
        | none => m
      { m with user_rooms := aerase m.user_rooms user_id }

/-- One external call against the manager. -/
inductive ManagerStep : Type
  | join (workflow_id user_id user_name : String)
  | leave (user_id : String)

/-- Run a sequence of manager calls from a given state (clock fixed at 0;
no timing-dependent behavior is involved). -/
def runManager (m : CollaborationManager) : List ManagerStep → CollaborationManager
  | [] => m
  | ManagerStep.join wf uid uname :: rest =>
      runManager (m.join_room wf uid uname 0).manager rest
  | ManagerStep.leave uid :: rest =>
      runManager (m.leave_room uid) rest

/-- Run a sequence of manager calls from the initial empty manager. -/
def runSteps (steps : List ManagerStep) : CollaborationManager :=
  runManager emptyManager steps

/-- `user_id` is a member of the room registered under `room_id`. -/
def memberOf (m : CollaborationManager) (room_id user_id : String) : Bool :=
  match alookup m.rooms room_id with
  | some room => (alookup room.users user_id).isSome
  | none => false

/-- One call to `CollaborationRoom.apply_operation`: the operation, the
submitting user, and the clock value at the call. -/
structure ApplyInput : Type where
  op : Operation
  user_id : String
  now : Nat

/-- Apply a sequence of operations to one room, in order. -/
def runApply (room : CollaborationRoom) : List ApplyInput → CollaborationRoom
  | [] => room
  | i :: rest => runApply (room.apply_operation i.op i.user_id i.now).2 rest

/-- One call to `CollaborationRoom.add_chat_message`. -/
structure ChatInput : Type where
  user_id : String
  user_name : String
  message : String
  msg_id : String
  now : Nat

/-- The `ChatMessage` a given call appends. -/
def toChatMessage (i : ChatInput) : ChatMessage :=
  { id := i.msg_id, user_id := i.user_id, user_name := i.user_name,
    message := i.message, timestamp := i.now }

/-- Insert a sequence of chat messages into one room, in order. -/
def runChat (room : CollaborationRoom) : List ChatInput → CollaborationRoom
  | [] => room
  | i :: rest =>
      runChat (room.add_chat_message i.user_id i.user_name i.message i.msg_id i.now).2 rest

/-- Spec-side reading of the conflict fold in `apply_operation` (spec §4.2):
stamp the author, left-fold through `transform` over exactly the logged
operations with revision greater than `op.revision` that were authored by a
different user, in log order, then hand the folded result to the engine's
`apply_operation`. -/
def applyOperationSpec (room : CollaborationRoom) (op : Operation)
    (user_id : String) : Operation :=
  let stamped := { op with user_id := user_id }
  let conflicting := (room.ot_engine.get_operations_since op.revision).filter
      (fun e => decide (e.user_id ≠ user_id))
  let folded := conflicting.foldl (fun acc e => OTEngine.transform acc.2 acc.1 e)
      (stamped, room.ot_engine)
  (OTEngine.apply_operation folded.2 folded.1).1

/-- The six wire tags accepted by `OperationType`. -/
def recognized_tags : List String :=
  ["insert", "delete", "update", "move", "connect", "disconnect"]

/-- The last (at most) 100 entries of a list (python `l[-100:]`). -/
def takeLast100 {α : Type} (l : List α) : List α :=
  l.drop (l.length - 100)

/-- Every registered room carries its registry key as its `room_id` (true of
every room the manager ever creates). -/
def RoomsCoherent (m : CollaborationManager) : Prop :=
  ∀ rid room, alookup m.rooms rid = some room → room.room_id = rid

/-- Every member of a registered room is tracked in `user_rooms` as being in
exactly that room. -/
def ManagerInv (m : CollaborationManager) : Prop :=
  ∀ rid room uid, alookup m.rooms rid = some room →
    (alookup room.users uid).isSome = true →
    alookup m.user_rooms uid = some rid

def demoEngine : OTEngine :=
  { operations := [], revision := 0, transform_cache := [] }

def opA : Operation :=
  { id := "a", type := OperationType.update, path := "p", value := some "1", timestamp := 5 }

def opB : Operation :=
  { id := "b", type := OperationType.update, path := "p", value := some "9", timestamp := 3 }

def opA2 : Operation :=
  { id := "a", type := OperationType.update, path := "q", value := some "1", timestamp := 5 }

def opB2 : Operation :=
  { id := "b", type := OperationType.update, path := "r", value := some "9", timestamp := 3 }

def demoRoom : CollaborationRoom := freshRoom "room_wf1" "wf1" 0

def demoClientU1 : CollaborationClient := mkClient "u1" "Alice" demoRoom

def demoOp1 : Operation :=
  { id := "op1", type := OperationType.update, path := "nodes.n1.title",
    value := some "Hello", timestamp := 100 }

def demoOp2 : Operation :=
  { id := "op2", type := OperationType.update, path := "nodes.n1.title",
    value := some "World", timestamp := 90 }

def demoApplyInputs : List ApplyInput :=
  [{ op := demoOp1, user_id := "u1", now := 0 },
   { op := demoOp2, user_id := "u2", now := 0 }]

def badClient : CollaborationClient :=
  { user_id := "u1", user_name := "Bad", user_color := "#FF6B6B",
    message_handler := some (fun _ => Except.error "connection lost") }

def okClient : CollaborationClient :=
  { user_id := "u2", user_name := "Ok", user_color := "#4ECDC4",
    message_handler := none }

def demoUsers : List (String × CollaborationClient) :=
  [("u1", badClient), ("u2", okClient)]

def demoChatInputs : List ChatInput :=
  (List.range 150).map (fun i =>
    { user_id := "u1", user_name := "Alice", message := toString i,
      msg_id := toString i, now := i })

def demoJoinSteps : List ManagerStep :=
  [ManagerStep.join "wfA" "u1" "Alice", ManagerStep.join "wfB" "u1" "Alice"]

theorem alookup_aset_self {κ α : Type} [DecidableEq κ] (l : List (κ × α)) (k : κ) (v : α) :
    alookup (aset l k v) k = some v := by
  induction l with
  | nil => simp [aset, alookup]
  | cons p rest ih =>
      obtain ⟨pk, pv⟩ := p
      by_cases h : pk = k
      · subst h
        simp [aset, alookup]
      · simp [aset, alookup, h, ih]

theorem alookup_aset_ne {κ α : Type} [DecidableEq κ] (l : List (κ × α)) (k k2 : κ) (v : α)
    (h : k2 ≠ k) : alookup (aset l k v) k2 = alookup l k2 := by
  have hk : k ≠ k2 := Ne.symm h
  induction l with
  | nil => simp [aset, alookup, hk]
  | cons p rest ih =>
      obtain ⟨pk, pv⟩ := p
      by_cases hp : pk = k
      · subst hp
        simp [aset, alookup, hk]
      · simp [aset, alookup, hp, ih]

theorem alookup_aerase_self {κ α : Type} [DecidableEq κ] (l : List (κ × α)) (k : κ) :
    alookup (aerase l k) k = none := by
  induction l with
  | nil => rfl
  | cons p rest ih =>
      obtain ⟨pk, pv⟩ := p
      by_cases h : pk = k
      · simpa [aerase, List.filter_cons, alookup, h] using ih
      · simpa [aerase, List.filter_cons, alookup, h] using ih

theorem alookup_aerase_ne {κ α : Type} [DecidableEq κ] (l : List (κ × α)) (k k2 : κ)
    (h : k2 ≠ k) : alookup (aerase l k) k2 = alookup l k2 := by
  induction l with
  | nil => rfl
  | cons p rest ih =>
      obtain ⟨pk, pv⟩ := p
      simp only [aerase, ne_eq, decide_not] at ih
      by_cases hp : pk = k
      · simp [aerase, List.filter_cons, alookup, hp, Ne.symm h, ih]
      · simp [aerase, List.filter_cons, alookup, hp, ih]

theorem transform_cache_hit (e : OTEngine) (x y r : Operation)
    (h : alookup e.transform_cache (x.id, y.id) = some r) :
    OTEngine.transform e x y = (r, e) := by
  simp [OTEngine.transform, h]

theorem cacheLookup_after_transform (engine : OTEngine) (a b : Operation) :
    alookup (OTEngine.transform engine a b).2.transform_cache (a.id, b.id) =
      some (OTEngine.transform engine a b).1 := by
  unfold OTEngine.transform
  cases h : alookup engine.transform_cache (a.id, b.id) with
  | some cached => simp [h]
  | none => simp [h, alookup]

/-- C1: counterexample. After `transform(opA, opB)` caches the id pair
`("a", "b")` (with `opB`'s value adopted, since `opA.timestamp ≥
opB.timestamp` on equal paths), a later `transform(opA2, opB2)` with the same
ids but different paths returns the cached operation, which differs from
`opA2` — so the claim's unconditional "returns an operation equal to `a` in
every field when `a.path != b.path`" is false on a non-empty cache. -/
theorem C1_path_independence_counterexample :
    opA2.path ≠ opB2.path ∧
    (OTEngine.transform (OTEngine.transform demoEngine opA opB).2 opA2 opB2).1 ≠ opA2 := by
  decide

/-- C1 (amended): provided the pair `(a.id, b.id)` is not yet memoized in the
engine's transform cache (in particular on a fresh engine), `transform(a, b)`
returns an operation equal to `a` in every field when `a.path ≠ b.path`, and
likewise when paths agree and `a.timestamp < b.timestamp`; when paths agree
and `a.timestamp ≥ b.timestamp` it returns `a` with only `value` replaced by
`b.value`. -/
theorem C1_transform_rule (engine : OTEngine) (a b : Operation)
    (h : alookup engine.transform_cache (a.id, b.id) = none) :
    (a.path ≠ b.path → (OTEngine.transform engine a b).1 = a) ∧
    (a.path = b.path → a.timestamp < b.timestamp →
      (OTEngine.transform engine a b).1 = a) ∧
    (a.path = b.path → ¬ a.timestamp < b.timestamp →
      (OTEngine.transform engine a b).1 = { a with value := b.value }) := by
  refine ⟨fun hne => ?_, fun hp hlt => ?_, fun hp hnl => ?_⟩
  · simp [OTEngine.transform, h, hne]
  · simp [OTEngine.transform, h, hp, hlt]
    rw [← hp]
  · simp [OTEngine.transform, h, hp, hnl]

/-- C1 witness: on a fresh engine, a transform of two operations with
different paths is the identity on the first operation. -/
theorem C1_transform_rule_witness :
    (OTEngine.transform demoEngine opA2 opB2).1 = opA2 :=
  (C1_transform_rule demoEngine opA2 opB2 rfl).1 (by decide)

/-- C10: transform results are memoized keyed only on the id pair — once
`transform(a, b)` has been computed, any later `transform(a2, b2)` with the
same two ids returns the cached first result and leaves the engine unchanged,
regardless of the other fields of `a2` and `b2`. -/
theorem C10_transform_memoized (engine : OTEngine) (a b a2 b2 : Operation)
    (h1 : a2.id = a.id) (h2 : b2.id = b.id) :
    OTEngine.transform (OTEngine.transform engine a b).2 a2 b2 =
      ((OTEngine.transform engine a b).1, (OTEngine.transform engine a b).2) := by
  apply transform_cache_hit
  rw [h1, h2]
  exact cacheLookup_after_transform engine a b

/-- C10 witness: the cached result for ids `("a", "b")` is returned for
`opA2`/`opB2`, whose paths and values differ from `opA`/`opB`. -/
theorem C10_transform_memoized_witness :
    OTEngine.transform (OTEngine.transform demoEngine opA opB).2 opA2 opB2 =
      ((OTEngine.transform demoEngine opA opB).1,
       (OTEngine.transform demoEngine opA opB).2) :=
  C10_transform_memoized demoEngine opA opB opA2 opB2 rfl rfl

theorem fromString_none_of_not_recognized (s : String) (h : s ∉ recognized_tags) :
    OperationType.fromString s = none := by
  simp [recognized_tags] at h
  obtain ⟨h1, h2, h3, h4, h5, h6⟩ := h
  simp [OperationType.fromString, h1, h2, h3, h4, h5, h6]

/-- C9: `handle_operation` on a payload whose tag is present but not one of
the six recognized kinds returns the construction error (the enum
`ValueError`) to the caller, and never returns an applied operation — the
room is not touched. -/
theorem C9_unrecognized_tag (c : CollaborationClient) (room : CollaborationRoom)
    (data : OperationPayload) (fresh_id : String) (now : Nat) (s : String)
    (hs : data.type = some s) (h : s ∉ recognized_tags) :
    c.handle_operation room data fresh_id now = Except.error s ∧
    ∀ applied room2,
      c.handle_operation room data fresh_id now ≠ Except.ok (applied, room2) := by
  have hn : OperationType.fromString s = none := fromString_none_of_not_recognized s h
  constructor
  · simp [CollaborationClient.handle_operation, hs, hn]
  · intro applied room2
    simp [CollaborationClient.handle_operation, hs, hn]

/-- C9 witness: the tag `"teleport"` is rejected with a propagated error. -/
theorem C9_unrecognized_tag_witness :
    demoClientU1.handle_operation demoRoom { type := some "teleport" } "f1" 7 =
      Except.error "teleport" :=
  (C9_unrecognized_tag demoClientU1 demoRoom { type := some "teleport" } "f1" 7
    "teleport" rfl (by decide)).1

/-- C3: counterexample. On a room with `last_activity = 0`, a chat message
stamped at time 5 and a cursor update whose `last_update` is 5 both leave
`last_activity` at 0 — neither method updates it, contradicting the claim
that after these operations `last_activity` reflects the operation's time. -/
theorem C3_last_activity_counterexample :
    ((demoRoom.add_chat_message "u1" "Alice" "hi" "m1" 5).2).last_activity ≠ 5 ∧
    ((demoRoom.update_cursor
        { user_id := "u1", user_name := "Alice", user_color := "#FF6B6B",
          last_update := 5 }).2).last_activity ≠ 5 := by
  decide

/-- C3 (amended): only accepted operations update `last_activity`
(`apply_operation` sets it to the current time); `update_cursor` and
`add_chat_message` leave `last_activity` unchanged. -/
theorem C3_last_activity (room : CollaborationRoom) (cursor : Cursor)
    (u un msg mid : String) (now : Nat) (op : Operation) (uid : String) :
    ((room.update_cursor cursor).2).last_activity = room.last_activity ∧
    ((room.add_chat_message u un msg mid now).2).last_activity = room.last_activity ∧
    ((room.apply_operation op uid now).2).last_activity = now := by
  exact ⟨rfl, rfl, rfl⟩

theorem transform_operations_eq (e : OTEngine) (a b : Operation) :
    (OTEngine.transform e a b).2.operations = e.operations := by
  unfold OTEngine.transform
  cases h : alookup e.transform_cache (a.id, b.id) <;> simp [h]

theorem transform_revision_eq (e : OTEngine) (a b : Operation) :
    (OTEngine.transform e a b).2.revision = e.revision := by
  unfold OTEngine.transform
  cases h : alookup e.transform_cache (a.id, b.id) <;> simp [h]

theorem foldl_transformFoldStep_engine (uid : String) :
    ∀ (l : List Operation) (acc : Operation × OTEngine),
      ((l.foldl (transformFoldStep uid) acc).2).operations = acc.2.operations ∧
      ((l.foldl (transformFoldStep uid) acc).2).revision = acc.2.revision
  | [], _ => ⟨rfl, rfl⟩
  | e :: rest, acc => by
      simp only [List.foldl_cons]
      by_cases he : e.user_id ≠ uid
      · rcases foldl_transformFoldStep_engine uid rest (OTEngine.transform acc.2 acc.1 e)
          with ⟨h1, h2⟩
        have heq : transformFoldStep uid acc e = OTEngine.transform acc.2 acc.1 e := by
          simp [transformFoldStep, he]
        rw [heq]
        exact ⟨h1.trans (transform_operations_eq acc.2 acc.1 e),
               h2.trans (transform_revision_eq acc.2 acc.1 e)⟩
      · have heq : transformFoldStep uid acc e = acc := by
          simp [transformFoldStep, he]
        rw [heq]
        exact foldl_transformFoldStep_engine uid rest acc

theorem apply_operation_log (room : CollaborationRoom) (op : Operation)
    (uid : String) (now : Nat) :
    (((room.apply_operation op uid now).2).ot_engine.operations).map (fun o => o.revision)
      = (room.ot_engine.operations.map (fun o => o.revision))
        ++ [room.ot_engine.revision + 1] ∧
    ((room.apply_operation op uid now).2).ot_engine.revision
      = room.ot_engine.revision + 1 := by
  unfold CollaborationRoom.apply_operation
  rcases foldl_transformFoldStep_engine uid
      (room.ot_engine.get_operations_since ({ op with user_id := uid } : Operation).revision)
      ({ op with user_id := uid }, room.ot_engine) with ⟨h1, h2⟩
  simp only [OTEngine.apply_operation, h1, h2, List.map_append, List.map_cons, List.map_nil]
  exact ⟨trivial, trivial⟩

theorem runApply_append (a b : List ApplyInput) :
    ∀ room : CollaborationRoom, runApply room (a ++ b) = runApply (runApply room a) b := by
  induction a with
  | nil => intro room; rfl
  | cons i rest ih =>
      intro room
      simp only [List.cons_append, runApply]
      exact ih _

theorem runApply_log (inputs : List ApplyInput) :
    ∀ room : CollaborationRoom,
      ((runApply room inputs).ot_engine.operations).map (fun o => o.revision)
        = (room.ot_engine.operations.map (fun o => o.revision))
          ++ List.range' (room.ot_engine.revision + 1) inputs.length ∧
      (runApply room inputs).ot_engine.revision
        = room.ot_engine.revision + inputs.length := by
  induction inputs with
  | nil => intro room; simp [runApply]
  | cons i rest ih =>
      intro room
      rcases apply_operation_log room i.op i.user_id i.now with ⟨ha, hr⟩
      rcases ih (room.apply_operation i.op i.user_id i.now).2 with ⟨ih1, ih2⟩
      constructor
      · rw [runApply, ih1, ha, hr, List.length_cons, List.range'_succ, List.append_assoc]
        rfl
      · rw [runApply, ih2, hr, List.length_cons]
        omega

/-- C2: starting from a room with an empty log, applying N operations through
`CollaborationRoom.apply_operation` stamps them with revisions exactly
`1, ..., N` in application order (current max + 1 each time, starting at 1),
and the revisions of already-logged operations are unchanged by any further
applies. -/
theorem C2_revision_sequence (inputs : List ApplyInput) (room : CollaborationRoom)
    (h1 : room.ot_engine.operations = []) (h2 : room.ot_engine.revision = 0) :
    ((runApply room inputs).ot_engine.operations).map (fun o => o.revision)
      = List.range' 1 inputs.length ∧
    ∀ rest : List ApplyInput,
      (((runApply room (inputs ++ rest)).ot_engine.operations).map
          (fun o => o.revision)).take inputs.length
        = ((runApply room inputs).ot_engine.operations).map (fun o => o.revision) := by
  have hbase : ((runApply room inputs).ot_engine.operations).map (fun o => o.revision)
      = List.range' 1 inputs.length := by
    rcases runApply_log inputs room with ⟨ha, _⟩
    rw [ha, h1, h2]
    simp
  refine ⟨hbase, fun rest => ?_⟩
  rw [runApply_append inputs rest room]
  rcases runApply_log rest (runApply room inputs) with ⟨ha, _⟩
  rw [ha, hbase, List.take_left']
  simp [List.length_range']

/-- C2 witness: two operations on a fresh room get revisions `[1, 2]`. -/
theorem C2_revision_sequence_witness :
    ((runApply demoRoom demoApplyInputs).ot_engine.operations).map (fun o => o.revision)
      = List.range' 1 demoApplyInputs.length :=
  (C2_revision_sequence demoApplyInputs demoRoom rfl rfl).1

theorem foldl_transformFoldStep_filter (uid : String) :
    ∀ (l : List Operation) (acc : Operation × OTEngine),
      l.foldl (transformFoldStep uid) acc
        = (l.filter (fun e => decide (e.user_id ≠ uid))).foldl
            (fun acc e => OTEngine.transform acc.2 acc.1 e) acc
  | [], _ => rfl
  | e :: rest, acc => by
      simp only [List.foldl_cons, List.filter_cons]
      by_cases he : e.user_id ≠ uid
      · rw [if_pos (decide_eq_true he)]
        have heq : transformFoldStep uid acc e = OTEngine.transform acc.2 acc.1 e := by
          simp [transformFoldStep, he]
        rw [heq, List.foldl_cons]
        exact foldl_transformFoldStep_filter uid rest _
      · rw [if_neg (by simpa using he)]
        have heq : transformFoldStep uid acc e = acc := by
          simp [transformFoldStep, he]
        rw [heq]
        exact foldl_transformFoldStep_filter uid rest acc

/-- C6: `apply_operation` returns exactly the spec's left fold — the stamped
operation folded through `transform` against the logged operations newer than
`op.revision` by other authors, oldest first (the log of any run is sorted by
strictly increasing revision, so log order is oldest-first), then applied. In
the spec's scenario, `u2`'s same-path operation with timestamp 90 (against
`u1`'s already-applied timestamp-100 operation) is applied as revision 2 with
its value unchanged. -/
theorem C6_apply_operation_fold :
    (∀ (room : CollaborationRoom) (op : Operation) (uid : String) (now : Nat),
        (room.apply_operation op uid now).1 = applyOperationSpec room op uid) ∧
    (∀ inputs : List ApplyInput,
        List.Pairwise (· < ·)
          (((runApply demoRoom inputs).ot_engine.operations).map (fun o => o.revision))) ∧
    (((demoRoom.apply_operation demoOp1 "u1" 0).2).apply_operation
        demoOp2 "u2" 0).1.revision = 2 ∧
    (((demoRoom.apply_operation demoOp1 "u1" 0).2).apply_operation
        demoOp2 "u2" 0).1.value = demoOp2.value := by
  refine ⟨fun room op uid now => ?_, fun inputs => ?_, by decide, by decide⟩
  · simp only [CollaborationRoom.apply_operation, applyOperationSpec]
    rw [foldl_transformFoldStep_filter]
  · rcases runApply_log inputs demoRoom with ⟨ha, _⟩
    rw [ha]
    simpa [demoRoom, freshRoom] using List.pairwise_lt_range' 1 inputs.length

theorem broadcastSend_ok :
    ∀ (users : List (String × CollaborationClient)) (message : Message)
      (exclude : Option String),
      broadcastSend users message exclude
        = Except.ok (broadcastRun users message exclude)
  | [], _, _ => rfl
  | (uid, client) :: rest, message, exclude => by
      have ih := broadcastSend_ok rest message exclude
      by_cases hx : exclude = some uid
      · simp only [broadcastSend, broadcastRun, if_pos hx]
        exact ih
      · simp only [broadcastSend, broadcastRun, if_neg hx]
        cases hs : client.send message with
        | ok u => rw [ih]
        | error e => exact ih

theorem mem_broadcastRun (message : Message) (exclude : Option String) (uid : String)
    (c : CollaborationClient) :
    ∀ users : List (String × CollaborationClient),
      alookup users uid = some c → exclude ≠ some uid →
      c.send message = Except.ok () → uid ∈ broadcastRun users message exclude
  | [], h1, _, _ => by simp [alookup] at h1
  | (pk, pc) :: rest, h1, h2, h3 => by
      by_cases hp : pk = uid
      · subst hp
        have hc : pc = c := by simpa [alookup] using h1
        subst hc
        simp only [broadcastRun, if_neg h2, h3]
        exact List.mem_cons_self _ _
      · have h1r : alookup rest uid = some c := by simpa [alookup, hp] using h1
        have hmem := mem_broadcastRun message exclude uid c rest h1r h2 h3
        by_cases hx : exclude = some pk
        · simpa only [broadcastRun, if_pos hx] using hmem
        · simp only [broadcastRun, if_neg hx]
          cases hs : pc.send message with
          | ok u => exact List.mem_cons_of_mem _ hmem
          | error e => exact hmem

/-- C7: `_broadcast` (the fan-out used by `apply_operation`, `update_cursor`
and `add_chat_message`, all of which call `broadcastRun`) never propagates a
recipient's exception to the caller — it always returns `Except.ok` — and a
member whose `send` succeeds is delivered to no matter how many other
recipients' callbacks raise. -/
theorem C7_broadcast_isolation (users : List (String × CollaborationClient))
    (message : Message) (exclude : Option String) (uid : String)
    (c : CollaborationClient) (h1 : alookup users uid = some c)
    (h2 : exclude ≠ some uid) (h3 : c.send message = Except.ok ()) :
    broadcastSend users message exclude
      = Except.ok (broadcastRun users message exclude) ∧
    uid ∈ broadcastRun users message exclude :=
  ⟨broadcastSend_ok users message exclude,
   mem_broadcastRun message exclude uid c users h1 h2 h3⟩

/-- C7 witness: with `u1`'s transport raising on every send, the broadcast
returns without error and still delivers to `u2`. -/
theorem C7_broadcast_isolation_witness :
    broadcastSend demoUsers (Message.user_left "x") none
      = Except.ok (broadcastRun demoUsers (Message.user_left "x") none) ∧
    "u2" ∈ broadcastRun demoUsers (Message.user_left "x") none :=
  C7_broadcast_isolation demoUsers (Message.user_left "x") none "u2" okClient rfl
    (by simp) rfl

theorem addChatList_eq (h : List ChatMessage) (m : ChatMessage) :
    addChatList h m = takeLast100 (h ++ [m]) := by
  unfold addChatList takeLast100
  by_cases hl : 100 < (h ++ [m]).length
  · rw [if_pos hl]
  · rw [if_neg hl]
    have hz : (h ++ [m]).length - 100 = 0 := by omega
    rw [hz, List.drop_zero]

theorem takeLast100_append (xs ys : List ChatMessage) :
    takeLast100 (takeLast100 xs ++ ys) = takeLast100 (xs ++ ys) := by
  unfold takeLast100
  by_cases hx : xs.length ≤ 100
  · have hz : xs.length - 100 = 0 := by omega
    rw [hz, List.drop_zero]
  · have hlen : (xs.drop (xs.length - 100)).length = 100 := by
      rw [List.length_drop]
      omega
    have hA : (xs.drop (xs.length - 100) ++ ys).length - 100 = ys.length := by
      rw [List.length_append, hlen]
      omega
    have hB : (xs ++ ys).length - 100 = (xs.length - 100) + ys.length := by
      rw [List.length_append]
      omega
    rw [hA, hB, List.drop_append_eq_append_drop, List.drop_append_eq_append_drop,
        List.drop_drop, hlen]
    congr 2
    omega

theorem foldl_addChatList (msgs : List ChatMessage) :
    ∀ h : List ChatMessage, h.length ≤ 100 →
      msgs.foldl addChatList h = takeLast100 (h ++ msgs) := by
  induction msgs with
  | nil =>
      intro h hl
      unfold takeLast100
      simp only [List.append_nil, List.foldl_nil]
      have hz : h.length - 100 = 0 := by omega
      rw [hz, List.drop_zero]
  | cons m rest ih =>
      intro h hl
      rw [List.foldl_cons, addChatList_eq]
      have hlen : (takeLast100 (h ++ [m])).length ≤ 100 := by
        unfold takeLast100
        rw [List.length_drop]
        omega
      rw [ih _ hlen, takeLast100_append]
      congr 1
      rw [List.append_assoc]
      rfl

theorem runChat_chat_history (inputs : List ChatInput) :
    ∀ room : CollaborationRoom,
      (runChat room inputs).chat_history
        = (inputs.map toChatMessage).foldl addChatList room.chat_history := by
  induction inputs with
  | nil => intro room; rfl
  | cons i rest ih =>
      intro room
      simp only [runChat, List.map_cons, List.foldl_cons]
      rw [ih]
      rfl

/-- C8: inserting chat messages into a room with empty history via
`add_chat_message` keeps exactly the last 100 in insertion order — after 150
inserts, 100 are stored and the oldest 50 discarded — and the stored history
never exceeds 100 entries after any sequence of calls. -/
theorem C8_chat_cap (room : CollaborationRoom) (inputs : List ChatInput)
    (h0 : room.chat_history = []) (h150 : inputs.length = 150) :
    (runChat room inputs).chat_history = (inputs.map toChatMessage).drop 50 ∧
    (runChat room inputs).chat_history.length = 100 ∧
    ∀ pre : List ChatInput, (runChat room pre).chat_history.length ≤ 100 := by
  have hgen : ∀ pre : List ChatInput,
      (runChat room pre).chat_history = takeLast100 (pre.map toChatMessage) := by
    intro pre
    rw [runChat_chat_history, h0]
    simpa using foldl_addChatList (pre.map toChatMessage) [] (by simp)
  have hmain : (runChat room inputs).chat_history
      = (inputs.map toChatMessage).drop 50 := by
    rw [hgen]
    unfold takeLast100
    congr 1
    rw [List.length_map, h150]
  refine ⟨hmain, ?_, fun pre => ?_⟩
  · rw [hmain, List.length_drop, List.length_map, h150]
  · rw [hgen]
    unfold takeLast100
    rw [List.length_drop]
    omega

/-- C8 witness: 150 concrete inserts leave the last 100 messages. -/
theorem C8_chat_cap_witness :
    (runChat demoRoom demoChatInputs).chat_history
      = (demoChatInputs.map toChatMessage).drop 50 :=
  (C8_chat_cap demoRoom demoChatInputs rfl (by simp [demoChatInputs])).1

theorem get_or_create_user_rooms (m : CollaborationManager) (wf : String) (now : Nat) :
    ((m.get_or_create_room wf now).2).user_rooms = m.user_rooms := by
  unfold CollaborationManager.get_or_create_room
  cases h : alookup m.rooms ("room_" ++ wf) <;> simp [h]

/-- C4: counterexample. After `join_room("wfA", "u1", ...)`, `u1` maps to the
target room `"room_wfA"` itself; the claim predicts the repeated
`join_room("wfA", "u1", ...)` performs no leave, but the code calls
`leave("u1")` on `"room_wfA"` before re-joining. -/
theorem C4_join_leave_counterexample :
    alookup ((emptyManager.join_room "wfA" "u1" "Alice" 0).manager).user_rooms "u1"
      = some "room_wfA" ∧
    ((emptyManager.join_room "wfA" "u1" "Alice" 0).manager.join_room
        "wfA" "u1" "Alice" 0).leave_calls = [("room_wfA", "u1")] :=
  ⟨rfl, rfl⟩

/-- C4 (amended): `join_room` calls `leave(user_id)` on the user's previous
room exactly when `user_rooms` maps the user to a room id that is still
registered after target-room creation — including when that id is the target
room itself; the code never compares the previous room with the target. -/
theorem C4_join_room_leave_calls (m : CollaborationManager)
    (wf uid uname : String) (now : Nat) :
    (m.join_room wf uid uname now).leave_calls
      = match alookup m.user_rooms uid with
        | some old =>
            match alookup ((m.get_or_create_room wf now).2).rooms old with
            | some _ => [(old, uid)]
            | none => []
        | none => [] := by
  simp only [CollaborationManager.join_room, leaveOldRoom, get_or_create_user_rooms]
  cases h1 : alookup m.user_rooms uid with
  | none => rfl
  | some old =>
      cases h2 : alookup ((m.get_or_create_room wf now).2).rooms old with
      | none => simp [h2]
      | some r => simp [h2]

theorem leave_preserves_room_id (room : CollaborationRoom) (uid : String) :
    ((room.leave uid).2).room_id = room.room_id := by
  unfold CollaborationRoom.leave
  by_cases h : (alookup room.users uid).isSome = true
  · simp [h]
  · simp [h]

theorem join_preserves_room_id (room : CollaborationRoom) (c : CollaborationClient) :
    ((room.join c).2).room_id = room.room_id := by
  unfold CollaborationRoom.join
  by_cases h : (alookup room.users c.user_id).isSome = true
  · simp [h]
  · simp [h]

theorem leave_users_self (room : CollaborationRoom) (uid : String) :
    alookup ((room.leave uid).2).users uid = none := by
  unfold CollaborationRoom.leave
  by_cases h : (alookup room.users uid).isSome = true
  · simp only [if_pos h]
    exact alookup_aerase_self room.users uid
  · simp only [if_neg h]
    exact Option.not_isSome_iff_eq_none.mp h

theorem leave_users_other (room : CollaborationRoom) (uid u : String) (h : u ≠ uid) :
    alookup ((room.leave uid).2).users u = alookup room.users u := by
  unfold CollaborationRoom.leave
  by_cases hm : (alookup room.users uid).isSome = true
  · simp only [if_pos hm]
    exact alookup_aerase_ne room.users uid u h
  · simp only [if_neg hm]

theorem join_users_mem (room : CollaborationRoom) (c : CollaborationClient)
    (u : String) :
    (alookup ((room.join c).2).users u).isSome = true →
    u = c.user_id ∨ (alookup room.users u).isSome = true := by
  unfold CollaborationRoom.join
  by_cases hm : (alookup room.users c.user_id).isSome = true
  · simp only [if_pos hm]
    exact fun h => Or.inr h
  · simp only [if_neg hm]
    by_cases hu : u = c.user_id
    · exact fun _ => Or.inl hu
    · rw [alookup_aset_ne room.users c.user_id u c hu]
      exact fun h => Or.inr h

theorem alookup_aset_isSome {κ α : Type} [DecidableEq κ] (l : List (κ × α)) (k k2 : κ)
    (v : α) (h : (alookup l k2).isSome = true) :
    (alookup (aset l k v) k2).isSome = true := by
  by_cases hk : k2 = k
  · subst hk
    rw [alookup_aset_self]
    rfl
  · rw [alookup_aset_ne l k k2 v hk]
    exact h

theorem get_or_create_rooms_lookup (m : CollaborationManager) (wf : String)
    (now : Nat) (rid : String) :
    alookup ((m.get_or_create_room wf now).2).rooms rid = alookup m.rooms rid
    ∨ (alookup m.rooms rid = none ∧ rid = "room_" ++ wf ∧
        alookup ((m.get_or_create_room wf now).2).rooms rid
          = some (freshRoom ("room_" ++ wf) wf now)) := by
  unfold CollaborationManager.get_or_create_room
  cases h : alookup m.rooms ("room_" ++ wf) with
  | some r => left; simp [h]
  | none =>
      by_cases hr : rid = "room_" ++ wf
      · right
        subst hr
        exact ⟨h, rfl, by simp [h, alookup_aset_self]⟩
      · left
        simp [h, alookup_aset_ne m.rooms ("room_" ++ wf) rid _ hr]

theorem get_or_create_coherent (m : CollaborationManager) (wf : String) (now : Nat)
    (hc : RoomsCoherent m) : RoomsCoherent ((m.get_or_create_room wf now).2) := by
  intro rid room hl
  rcases get_or_create_rooms_lookup m wf now rid with heq | ⟨_, hrid, hsome⟩
  · exact hc rid room (heq ▸ hl)
  · have hq := Option.some.inj (hsome.symm.trans hl)
    rw [← hq, hrid]
    rfl

theorem get_or_create_inv (m : CollaborationManager) (wf : String) (now : Nat)
    (hi : ManagerInv m) : ManagerInv ((m.get_or_create_room wf now).2) := by
  intro rid room uid hl hu
  rw [get_or_create_user_rooms]
  rcases get_or_create_rooms_lookup m wf now rid with heq | ⟨_, _, hsome⟩
  · exact hi rid room uid (heq ▸ hl) hu
  · have hq := Option.some.inj (hsome.symm.trans hl)
    rw [← hq] at hu
    simp [freshRoom, alookup] at hu

theorem get_or_create_target_isSome (m : CollaborationManager) (wf : String)
    (now : Nat) :
    (alookup ((m.get_or_create_room wf now).2).rooms ("room_" ++ wf)).isSome = true := by
  unfold CollaborationManager.get_or_create_room
  cases h : alookup m.rooms ("room_" ++ wf) with
  | some r => simp [h]
  | none => simp [h, alookup_aset_self]

theorem leaveOldRoom_user_rooms (m : CollaborationManager) (uid : String) :
    (leaveOldRoom m uid).1.user_rooms = m.user_rooms := by
  unfold leaveOldRoom
  cases h1 : alookup m.user_rooms uid with
  | none => rfl
  | some old =>
      cases h2 : alookup m.rooms old with
      | none => simp [h2]
      | some r => simp [h2]

theorem leaveOldRoom_rooms_lookup (m : CollaborationManager) (uid rid : String) :
    (alookup (leaveOldRoom m uid).1.rooms rid = alookup m.rooms rid ∧
       (alookup m.user_rooms uid = some rid → alookup m.rooms rid = none))
    ∨ ∃ old_room,
        alookup m.user_rooms uid = some rid ∧
        alookup m.rooms rid = some old_room ∧
        alookup (leaveOldRoom m uid).1.rooms rid = some ((old_room.leave uid).2) := by
  unfold leaveOldRoom
  cases h1 : alookup m.user_rooms uid with
  | none =>
      left
      exact ⟨rfl, fun h => Option.noConfusion h⟩
  | some old =>
      cases h2 : alookup m.rooms old with
      | none =>
          left
          refine ⟨by simp [h2], fun h => ?_⟩
          have hor : old = rid := Option.some.inj h
          rw [← hor]
          exact h2
      | some oldRoom =>
          by_cases hr : rid = old
          · right
            subst hr
            refine ⟨oldRoom, rfl, h2, ?_⟩
            simp [h2, alookup_aset_self]
          · left
            refine ⟨?_, fun h => ?_⟩
            · simp [h2, alookup_aset_ne m.rooms old rid _ hr]
            · have hor : old = rid := Option.some.inj h
              exact absurd hor.symm hr

theorem leaveOldRoom_coherent (m : CollaborationManager) (uid : String)
    (hc : RoomsCoherent m) : RoomsCoherent (leaveOldRoom m uid).1 := by
  intro rid room hl
  rcases leaveOldRoom_rooms_lookup m uid rid with ⟨heq, _⟩ | ⟨oldRoom, _, h2, hsome⟩
  · exact hc rid room (heq ▸ hl)
  · have hq := Option.some.inj (hsome.symm.trans hl)
    rw [← hq, leave_preserves_room_id]
    exact hc rid oldRoom h2

theorem leaveOldRoom_not_member (m : CollaborationManager) (uid : String)
    (hi : ManagerInv m) :
    ∀ rid room, alookup (leaveOldRoom m uid).1.rooms rid = some room →
      alookup room.users uid = none := by
  intro rid room hl
  rcases leaveOldRoom_rooms_lookup m uid rid with ⟨heq, hneg⟩ | ⟨oldRoom, _, _, hsome⟩
  · rw [heq] at hl
    cases ho : alookup room.users uid with
    | none => rfl
    | some c =>
        have hu : (alookup room.users uid).isSome = true := by rw [ho]; rfl
        have hur := hi rid room uid hl hu
        rw [hneg hur] at hl
        exact Option.noConfusion hl
  · have hq := Option.some.inj (hsome.symm.trans hl)
    rw [← hq]
    exact leave_users_self oldRoom uid

theorem leaveOldRoom_partial_inv (m : CollaborationManager) (uid : String)
    (hi : ManagerInv m) :
    ∀ rid room u, u ≠ uid →
      alookup (leaveOldRoom m uid).1.rooms rid = some room →
      (alookup room.users u).isSome = true →
      alookup (leaveOldRoom m uid).1.user_rooms u = some rid := by
  intro rid room u hne hl hu
  rw [leaveOldRoom_user_rooms]
  rcases leaveOldRoom_rooms_lookup m uid rid with ⟨heq, _⟩ | ⟨oldRoom, _, h2, hsome⟩
  · exact hi rid room u (heq ▸ hl) hu
  · have hq := Option.some.inj (hsome.symm.trans hl)
    rw [← hq, leave_users_other oldRoom uid u hne] at hu
    exact hi rid oldRoom u h2 hu

theorem leaveOldRoom_isSome (m : CollaborationManager) (uid k : String)
    (h : (alookup m.rooms k).isSome = true) :
    (alookup (leaveOldRoom m uid).1.rooms k).isSome = true := by
  rcases leaveOldRoom_rooms_lookup m uid k with ⟨heq, _⟩ | ⟨oldRoom, _, _, hsome⟩
  · rw [heq]
    exact h
  · rw [hsome]
    rfl

theorem joinTarget_preserves (m2 : CollaborationManager) (key : String)
    (fallback : CollaborationRoom) (uid uname : String)
    (hc2 : RoomsCoherent m2)
    (hkey : (alookup m2.rooms key).isSome = true)
    (hnm : ∀ rid room, alookup m2.rooms rid = some room →
        alookup room.users uid = none)
    (hpi : ∀ rid room u, u ≠ uid → alookup m2.rooms rid = some room →
        (alookup room.users u).isSome = true →
        alookup m2.user_rooms u = some rid) :
    RoomsCoherent (joinTarget m2 key fallback uid uname).2.2 ∧
    ManagerInv (joinTarget m2 key fallback uid uname).2.2 := by
  obtain ⟨troom, htroom⟩ := Option.isSome_iff_exists.mp hkey
  have hrid : troom.room_id = key := hc2 key troom htroom
  simp only [joinTarget, htroom, Option.getD_some]
  constructor
  · intro rid room hl
    by_cases hr : rid = key
    · subst hr
      rw [alookup_aset_self] at hl
      have hq := Option.some.inj hl
      rw [← hq, join_preserves_room_id]
      exact hrid
    · rw [alookup_aset_ne _ _ _ _ hr] at hl
      exact hc2 rid room hl
  · intro rid room u hl hu
    rw [hrid]
    by_cases hu0 : u = uid
    · subst hu0
      have hrk : rid = key := by
        by_contra hr
        rw [alookup_aset_ne _ _ _ _ hr] at hl
        rw [hnm rid room hl] at hu
        exact Bool.noConfusion hu
      subst hrk
      rw [alookup_aset_self]
    · rw [alookup_aset_ne _ _ _ _ hu0]
      by_cases hr : rid = key
      · subst hr
        rw [alookup_aset_self] at hl
        have hq := Option.some.inj hl
        rw [← hq] at hu
        rcases join_users_mem troom (mkClient uid uname troom) u hu with hcu | hmem
        · exact absurd hcu hu0
        · exact hpi rid troom u hu0 htroom hmem
      · rw [alookup_aset_ne _ _ _ _ hr] at hl
        exact hpi rid room u hu0 hl hu

theorem join_room_preserves (m : CollaborationManager) (wf uid uname : String)
    (now : Nat) (hc : RoomsCoherent m) (hi : ManagerInv m) :
    RoomsCoherent (m.join_room wf uid uname now).manager ∧
    ManagerInv (m.join_room wf uid uname now).manager := by
  have hc1 := get_or_create_coherent m wf now hc
  have hi1 := get_or_create_inv m wf now hi
  have hc2 := leaveOldRoom_coherent ((m.get_or_create_room wf now).2) uid hc1
  have hnm := leaveOldRoom_not_member ((m.get_or_create_room wf now).2) uid hi1
  have hpi := leaveOldRoom_partial_inv ((m.get_or_create_room wf now).2) uid hi1
  have hkey := leaveOldRoom_isSome ((m.get_or_create_room wf now).2) uid
    ("room_" ++ wf) (get_or_create_target_isSome m wf now)
  exact joinTarget_preserves _ ("room_" ++ wf) _ uid uname hc2 hkey hnm hpi

theorem leave_room_preserves (m : CollaborationManager) (uid : String)
    (hc : RoomsCoherent m) (hi : ManagerInv m) :
    RoomsCoherent (m.leave_room uid) ∧ ManagerInv (m.leave_room uid) := by
  unfold CollaborationManager.leave_room
  cases h1 : alookup m.user_rooms uid with
  | none => exact ⟨hc, hi⟩
  | some room_id =>
      cases h2 : alookup m.rooms room_id with
      | none =>
          simp only [h2]
          constructor
          · intro rid room hl
            exact hc rid room hl
          · intro rid room u hl hu
            have hur := hi rid room u hl hu
            by_cases hu0 : u = uid
            · subst hu0
              have hq : rid = room_id := Option.some.inj (hur.symm.trans h1)
              rw [hq, h2] at hl
              exact Option.noConfusion hl
            · rw [alookup_aerase_ne _ _ _ hu0]
              exact hur
      | some rm =>
          simp only [h2]
          constructor
          · intro rid room2 hl
            by_cases hr : rid = room_id
            · subst hr
              rw [alookup_aset_self] at hl
              have hq := Option.some.inj hl
              rw [← hq, leave_preserves_room_id]
              exact hc rid rm h2
            · rw [alookup_aset_ne _ _ _ _ hr] at hl
              exact hc rid room2 hl
          · intro rid room2 u hl hu
            by_cases hu0 : u = uid
            · subst hu0
              by_cases hr : rid = room_id
              · subst hr
                rw [alookup_aset_self] at hl
                have hq := Option.some.inj hl
                rw [← hq, leave_users_self] at hu
                exact Bool.noConfusion hu
              · rw [alookup_aset_ne _ _ _ _ hr] at hl
                have hur := hi rid room2 u hl hu
                have hq : rid = room_id := Option.some.inj (hur.symm.trans h1)
                exact absurd hq hr
            · rw [alookup_aerase_ne _ _ _ hu0]
              by_cases hr : rid = room_id
              · subst hr
                rw [alookup_aset_self] at hl
                have hq := Option.some.inj hl
                rw [← hq, leave_users_other rm uid u hu0] at hu
                exact hi rid rm u h2 hu
              · rw [alookup_aset_ne _ _ _ _ hr] at hl
                exact hi rid room2 u hl hu

theorem runManager_preserves (steps : List ManagerStep) :
    ∀ m : CollaborationManager, RoomsCoherent m → ManagerInv m →
      RoomsCoherent (runManager m steps) ∧ ManagerInv (runManager m steps) := by
  induction steps with
  | nil => exact fun m hc hi => ⟨hc, hi⟩
  | cons s rest ih =>
      intro m hc hi
      cases s with
      | join wf uid uname =>
          rcases join_room_preserves m wf uid uname 0 hc hi with ⟨hc2, hi2⟩
          exact ih _ hc2 hi2
      | leave uid =>
          rcases leave_room_preserves m uid hc hi with ⟨hc2, hi2⟩
          exact ih _ hc2 hi2

theorem emptyManager_coherent : RoomsCoherent emptyManager := by
  intro rid room h
  exact Option.noConfusion h

theorem emptyManager_inv : ManagerInv emptyManager := by
  intro rid room uid h _
  exact Option.noConfusion h

/-- C5: after any sequence of `join_room`/`leave_room` calls starting from
the initial empty manager, every user is a member of at most one registered
room; in particular, after joining `"wfA"` and then `"wfB"` as `"u1"`, the
user is a member of `"room_wfB"` and not of `"room_wfA"`. -/
theorem C5_single_room (steps : List ManagerStep) (rid1 rid2 uid : String)
    (h1 : memberOf (runSteps steps) rid1 uid = true)
    (h2 : memberOf (runSteps steps) rid2 uid = true) :
    rid1 = rid2 ∧
    memberOf (runSteps demoJoinSteps) "room_wfB" "u1" = true ∧
    memberOf (runSteps demoJoinSteps) "room_wfA" "u1" = false := by
  refine ⟨?_, by rfl, by rfl⟩
  have hok := runManager_preserves steps emptyManager emptyManager_coherent
    emptyManager_inv
  unfold memberOf at h1 h2
  cases ho1 : alookup (runSteps steps).rooms rid1 with
  | none =>
      rw [ho1] at h1
      exact Bool.noConfusion h1
  | some room1 =>
      rw [ho1] at h1
      cases ho2 : alookup (runSteps steps).rooms rid2 with
      | none =>
          rw [ho2] at h2
          exact Bool.noConfusion h2
      | some room2 =>
          rw [ho2] at h2
          have hu1 : (alookup room1.users uid).isSome = true := h1
          have hu2 : (alookup room2.users uid).isSome = true := h2
          have e1 := hok.2 rid1 room1 uid ho1 hu1
          have e2 := hok.2 rid2 room2 uid ho2 hu2
          exact Option.some.inj (e1.symm.trans e2)

/-- C5 witness: the invariant applied at the two-join scenario. -/
theorem C5_single_room_witness :
    ("room_wfB" : String) = "room_wfB" ∧
    memberOf (runSteps demoJoinSteps) "room_wfB" "u1" = true ∧
    memberOf (runSteps demoJoinSteps) "room_wfA" "u1" = false :=
  C5_single_room demoJoinSteps "room_wfB" "room_wfB" "u1" rfl rfl

end Collab
